import Mathlib

/-!
Verification of the geometry codec, LFS pointer-file extractor and
working-copy engine of the kart repository, as a shallow embedding.

Byte strings are modelled as `List Nat` with each element a byte value
(< 256 where it matters).  Python `struct` reads that run past the end of
the buffer are modelled as the `structError` outcome; each distinct Python
`raise` site is a distinct error constructor.
-/

/-- Decidable equality of fallible results, so that concrete runs of the
embedded operations can be checked by `decide`. -/
instance {ε α : Type} [DecidableEq ε] [DecidableEq α] :
    DecidableEq (Except ε α) := fun x y =>
  match x, y with
  | .ok a, .ok b =>
    if h : a = b then isTrue (by rw [h])
    else isFalse (fun hc => by cases hc; exact h rfl)
  | .error a, .error b =>
    if h : a = b then isTrue (by rw [h])
    else isFalse (fun hc => by cases hc; exact h rfl)
  | .ok _, .error _ => isFalse (fun hc => Except.noConfusion hc)
  | .error _, .ok _ => isFalse (fun hc => Except.noConfusion hc)

/-- Error kinds of the geometry codec (`sno/gpkg.py`).  Each constructor
corresponds to one `raise` site:
`badGeometry` = `ValueError("Expected GeoPackage Binary Geometry")`,
`unsupportedVersion` = `NotImplementedError("Expected GeoPackage v1 geometry…")`,
`unsupportedExtended` = `NotImplementedError("ExtendedGeoPackageBinary")`,
`invalidEnvelope` = `ValueError("Invalid envelope contents indicator")`,
`structError` = a `struct.error` from a read past the end of the buffer,
`hexError` = `ValueError` from `bytes.fromhex`,
`assertFailed` = a failed `assert`. -/
inductive GeomErr where
  | badGeometry
  | unsupportedVersion
  | unsupportedExtended
  | invalidEnvelope
  | structError
  | hexError
  | assertFailed
deriving DecidableEq, Repr

/-- Decode four bytes as an unsigned 32-bit word
(`struct.unpack("<I"/">I")`). -/
def u32dec4 (le : Bool) (b0 b1 b2 b3 : Nat) : Nat :=
  if le then b0 + 256 * (b1 + 256 * (b2 + 256 * b3))
  else b3 + 256 * (b2 + 256 * (b1 + 256 * b0))

/-- Encode an unsigned 32-bit word as four bytes
(`struct.pack("<I"/">I")`). -/
def u32enc (le : Bool) (v : Nat) : List Nat :=
  if le then [v % 256, v / 256 % 256, v / 65536 % 256, v / 16777216 % 256]
  else [v / 16777216 % 256, v / 65536 % 256, v / 256 % 256, v % 256]

/-- Reinterpret an unsigned 32-bit value as signed
(`struct.unpack("<i"/">i")` applied to the same bytes). -/
def toI32 (u : Nat) : Int :=
  if u < 2147483648 then (u : Int) else (u : Int) - 4294967296

/-- Read one byte at offset `i` (`struct.unpack_from("B", g, i)`);
`none` models the `struct.error` when the buffer is too short. -/
def readU8 (g : List Nat) (i : Nat) : Option Nat := g[i]?

/-- Read an unsigned 32-bit word at offset `off`
(`struct.unpack_from("<I"/">I", g, off)`). -/
def readU32 (le : Bool) (g : List Nat) (off : Nat) : Option Nat :=
  match g.drop off with
  | b0 :: b1 :: b2 :: b3 :: _ => some (u32dec4 le b0 b1 b2 b3)
  | _ => none

/-- Envelope byte size for a GPB envelope-contents indicator
(`parse_gpkg_geom`: 0/32/48/48/64 bytes for indicators 0–4). -/
def gpbEnvSize (ind : Nat) : Nat :=
  if ind = 1 then 32
  else if ind = 2 ∨ ind = 3 then 48
  else if ind = 4 then 64
  else 0

/-- Embedding of `sno.gpkg.parse_gpkg_geom`: validates the `GP` magic, the
version byte, the extended flag and the envelope indicator, then returns
`(wkb_offset, is_le, srid)`. -/
def parse_gpkg_geom (g : List Nat) : Except GeomErr (Nat × Bool × Int) :=
  if g.take 2 ≠ [0x47, 0x50] then .error .badGeometry
  else
    match readU8 g 2, readU8 g 3 with
    | some version, some flags =>
      if version ≠ 0 then .error .unsupportedVersion
      else
        let is_le : Bool := flags &&& 1 != 0
        if flags &&& 32 ≠ 0 then .error .unsupportedExtended
        else
          let envelope_typ := (flags &&& 14) >>> 1
          if envelope_typ = 1 ∨ envelope_typ = 2 ∨ envelope_typ = 3 ∨
              envelope_typ = 4 ∨ envelope_typ = 0 then
            match readU32 is_le g 4 with
            | some u => .ok (8 + gpbEnvSize envelope_typ, is_le, toI32 u)
            | none => .error .structError
          else .error .invalidEnvelope
    | _, _ => .error .structError

/-- Embedding of `sno.gpkg.geom_to_ewkb`: rewrites a GPB value into EWKB
without re-decoding the WKB body.  `none` input returns `none`. -/
def geom_to_ewkb (gpkg_geom : Option (List Nat)) :
    Except GeomErr (Option (List Nat)) :=
  match gpkg_geom with
  | none => .ok none
  | some g =>
    match parse_gpkg_geom g with
    | .error e => .error e
    | .ok (wkb_offset, _is_le, srid) =>
      match readU8 g wkb_offset with
      | none => .error .structError
      | some wkb_is_le =>
        let bo : Bool := wkb_is_le != 0
        match readU32 bo g (wkb_offset + 1) with
        | none => .error .structError
        | some wkb_type =>
          let wkb_geom_type := (wkb_type &&& 0xFFFF) % 1000
          let iso_zm := (wkb_type &&& 0xFFFF) / 1000
          let has_z : Bool := iso_zm == 1 || iso_zm == 3
          let has_m : Bool := iso_zm == 2 || iso_zm == 3
          let ewkb_geom_type :=
            wkb_geom_type ||| (if has_z then 0x80000000 else 0) |||
              (if has_m then 0x40000000 else 0) |||
              (if srid > 0 then 0x20000000 else 0)
          let ewkb := wkb_is_le :: u32enc bo ewkb_geom_type ++
            (if srid > 0 then u32enc bo srid.toNat else []) ++
            g.drop (wkb_offset + 5)
          .ok (some ewkb)

/-- Lowercase hex digit of a value < 16 (`bytes.hex()` digit). -/
def hexChar (n : Nat) : Char :=
  (String.toList "0123456789abcdef").getD n (Char.ofNat 48)

/-- Embedding of Python `bytes.hex()`: lowercase, two digits per byte. -/
def bytes_hex (b : List Nat) : List Char :=
  b.flatMap (fun x => [hexChar (x / 16), hexChar (x % 16)])

/-- Value of a hex digit character, either case (`bytes.fromhex`). -/
def hexVal (c : Char) : Option Nat :=
  let n := c.toNat
  if 48 ≤ n ∧ n ≤ 57 then some (n - 48)
  else if 97 ≤ n ∧ n ≤ 102 then some (n - 87)
  else if 65 ≤ n ∧ n ≤ 70 then some (n - 55)
  else none

/-- Embedding of Python `bytes.fromhex`: pairs of hex digits, skipping
ASCII spaces between pairs; `none` models its `ValueError`. -/
def bytes_fromhex : List Char → Option (List Nat)
  | [] => some []
  | c :: rest =>
    if c = ' ' then bytes_fromhex rest
    else
      match rest with
      | [] => none
      | d :: rest2 =>
        match hexVal c, hexVal d with
        | some a, some b => (bytes_fromhex rest2).map (fun l => (16 * a + b) :: l)
        | _, _ => none

/-- IEEE-754 binary64 NaN test on raw bytes: the double whose 8 bytes (in
the byte order given by `le`) have an all-ones exponent field and a
nonzero mantissa.  This is the byte-level characterization of
`math.isnan(struct.unpack("<d"/">d", …))`. -/
def isNan8 (le : Bool) (b : List Nat) : Bool :=
  match (if le then b.reverse else b) with
  | e0 :: e1 :: m =>
    (e0 &&& 0x7F == 0x7F) && (e1 &&& 0xF0 == 0xF0) && ((e1 &&& 0x0F) + m.sum != 0)
  | _ => false

/-- Embedding of `sno.gpkg.hexewkb_to_geom`: parses PostGIS hex EWKB and
re-assembles a GPB value, deriving the GPB empty flag from the first
inner geometry (NaN point coordinates, or a zero leading count).
`none` input returns `none`. -/
def hexewkb_to_geom (hexewkb : Option (List Char)) :
    Except GeomErr (Option (List Nat)) :=
  match hexewkb with
  | none => .ok none
  | some hx =>
    match bytes_fromhex hx with
    | none => .error .hexError
    | some ewkb =>
      match readU8 ewkb 0 with
      | none => .error .structError
      | some is_le =>
        let bo : Bool := is_le != 0
        match readU32 bo ewkb 1 with
        | none => .error .structError
        | some ewkb_type =>
          let has_z : Bool := ewkb_type &&& 0x80000000 != 0
          let has_m : Bool := ewkb_type &&& 0x40000000 != 0
          let has_srid : Bool := ewkb_type &&& 0x20000000 != 0
          let geom_type := ewkb_type &&& 0xFFFF
          let wkb_type := geom_type + 1000 * (if has_z then 1 else 0) +
            2000 * (if has_m then 1 else 0)
          let sridOff : Option (Nat × Nat) :=
            if has_srid then (readU32 bo ewkb 5).map (fun s => (s, 9))
            else some (0, 5)
          match sridOff with
          | none => .error .structError
          | some (srid, data_offset) =>
            let isEmptyOpt : Option Bool :=
              if wkb_type % 1000 = 1 then
                if data_offset + 16 ≤ ewkb.length then
                  some (isNan8 bo ((ewkb.drop data_offset).take 8) &&
                    isNan8 bo (((ewkb.drop data_offset).drop 8).take 8))
                else none
              else (readU32 bo ewkb data_offset).map (fun n => n == 0)
            match isEmptyOpt with
            | none => .error .structError
            | some is_empty =>
              let flags := (if bo then 1 else 0) |||
                (if is_empty then 16 else 0)
              if srid < 2147483648 then
                .ok (some ([0x47, 0x50, 0, flags] ++ u32enc bo srid ++
                  [is_le] ++ u32enc bo wkb_type ++ ewkb.drop data_offset))
              else .error .structError

/-- Embedding of `sno.gpkg.geom_to_ogr`.  The external OGR constructor
`ogr.CreateGeometryFromWkb` and the SRS annotation are taken as function
parameters (the OGR library is outside the specified core); `none` from
the constructor models OGR returning no geometry, which trips the
`assert geom is not None`. -/
def geom_to_ogr (createGeometryFromWkb : List Nat → Option (List Nat))
    (assignSpatialReference : List Nat → Int → List Nat)
    (gpkg_geom : Option (List Nat)) (parse_srs : Bool) :
    Except GeomErr (Option (List Nat)) :=
  match gpkg_geom with
  | none => .ok none
  | some g =>
    match parse_gpkg_geom g with
    | .error e => .error e
    | .ok (wkb_offset, _is_le, srid) =>
      match createGeometryFromWkb (g.drop wkb_offset) with
      | none => .error .assertFailed
      | some geom =>
        if parse_srs ∧ srid > 0 then .ok (some (assignSpatialReference geom srid))
        else .ok (some geom)

/-- Embedding of `sno.gpkg.geom_envelope`.  The four envelope doubles are
returned as their raw 32 bytes; the full-parse fallback for an absent
envelope is the function parameter `ogrEnvelope` (it goes through OGR,
outside the core).  `none` input returns `none`; an empty geometry or a
NaN envelope also yields `none`. -/
def geom_envelope (ogrEnvelope : List Nat → Except GeomErr (List Nat))
    (gpkg_geom : Option (List Nat)) : Except GeomErr (Option (List Nat)) :=
  match gpkg_geom with
  | none => .ok none
  | some g =>
    if g.take 2 ≠ [0x47, 0x50] then .error .badGeometry
    else
      match readU8 g 2, readU8 g 3 with
      | some version, some flags =>
        if version ≠ 0 then .error .unsupportedVersion
        else
          let is_le : Bool := flags &&& 1 != 0
          if flags &&& 32 ≠ 0 then .error .unsupportedExtended
          else if flags &&& 16 ≠ 0 then .ok none
          else
            let envelope_typ := (flags &&& 14) >>> 1
            if envelope_typ = 0 then
              match ogrEnvelope g with
              | .error e => .error e
              | .ok env => .ok (some env)
            else if envelope_typ ≤ 4 then
              if 8 + 32 ≤ g.length then
                let env := (g.drop 8).take 32
                if isNan8 is_le (env.take 8) ||
                    isNan8 is_le ((env.drop 8).take 8) ||
                    isNan8 is_le ((env.drop 16).take 8) ||
                    isNan8 is_le ((env.drop 24).take 8) then
                  .ok none
                else .ok (some env)
              else .error .structError
            else .error .invalidEnvelope
      | _, _ => .error .structError

/-! ## Pointer files (`kart/lfs_util.py`) -/

/-- A hex digit of either case, the character class `[0-9a-fA-F]` of
`POINTER_PATTERN` in `kart/lfs_util.py`. -/
def isHexDigitCI (c : Char) : Bool :=
  (48 ≤ c.toNat && c.toNat ≤ 57) || (97 ≤ c.toNat && c.toNat ≤ 102) ||
    (65 ≤ c.toNat && c.toNat ≤ 70)

/-- A lowercase-only hex digit, the character class `[0-9a-f]` used by the
specification text for the pointer-file pattern. -/
def isHexDigitLower (c : Char) : Bool :=
  (48 ≤ c.toNat && c.toNat ≤ 57) || (97 ≤ c.toNat && c.toNat ≤ 102)

/-- `^` of a MULTILINE pattern: position `p` starts the input or follows a
newline. -/
def lineStartAt (b : List Char) (p : Nat) : Bool :=
  p == 0 || b[p-1]? == some (Char.ofNat 10)

/-- `$` of a MULTILINE pattern: position `p` ends the input or is a
newline. -/
def lineEndAt (b : List Char) (p : Nat) : Bool :=
  p == b.length || b[p]? == some (Char.ofNat 10)

/-- The regular expression `^oid sha256:([0-9a-fA-F]{64})$` (MULTILINE)
matches at position `p`: `p` is a line start, the literal `oid sha256:`
follows, then 64 hex digits of either case, then a line end. -/
def oidMatchAt (b : List Char) (p : Nat) : Bool :=
  lineStartAt b p &&
    ((b.drop p).take 11 == String.toList "oid sha256:") &&
    (((b.drop p).drop 11).take 64).length == 64 &&
    (((b.drop p).drop 11).take 64).all isHexDigitCI &&
    lineEndAt b (p + 75)

/-- The same match with the specification text's lowercase-only character
class `[0-9a-f]` (used only to compare the spec against the code). -/
def oidMatchLowerAt (b : List Char) (p : Nat) : Bool :=
  lineStartAt b p &&
    ((b.drop p).take 11 == String.toList "oid sha256:") &&
    (((b.drop p).drop 11).take 64).length == 64 &&
    (((b.drop p).drop 11).take 64).all isHexDigitLower &&
    lineEndAt b (p + 75)

/-- Embedding of `kart.lfs_util.get_hash_from_pointer_file`:
`re.search` finds the leftmost position where `POINTER_PATTERN` matches
and returns its capture group, the 64 hex characters. -/
def get_hash_from_pointer_file (b : List Char) : Option (List Char) :=
  (((List.range (b.length + 1)).filter (fun p => oidMatchAt b p)).head?).map
    (fun p => ((b.drop p).drop 11).take 64)

/-! ## Working-copy model (`snowdrop/cli.py`)

SQLite values are dynamically typed; a value is `null`, an integer, a
string or a blob.  The working copy of one GeoPackage file is the two
side tables `__kxg_map` and `__kxg_meta`, the user table rows, and the
output of the meta-item serializer.  The serializer itself
(`snowdrop.gpkg.get_meta_info`) is not among the provided sources, only
its `sno`-era successor; following the specification (§4.3: values are
emitted as ordered mappings with sorted field names so the JSON encoding
is byte-stable), it is modelled as a stored list of `(name, value)` pairs
whose values compare by equality of their canonical JSON bytes. -/

/-- A dynamically-typed SQLite value. -/
inductive SqlValue where
  | null
  | int (i : Int)
  | text (s : String)
  | blob (b : List Nat)
deriving DecidableEq, Repr

/-- SQL `=`: `NULL` compares unequal to everything, itself included. -/
def sqlEq (a b : SqlValue) : Prop :=
  a ≠ SqlValue.null ∧ b ≠ SqlValue.null ∧ a = b

instance (a b : SqlValue) : Decidable (sqlEq a b) := by
  unfold sqlEq; infer_instance

/-- One row of `__kxg_map(table_name, feature_key, feature_id, state)`. -/
structure MapRow where
  table_name : String
  feature_key : Option String
  feature_id : SqlValue
  state : Int
deriving DecidableEq, Repr

/-- One row of `__kxg_meta(table_name, key, value)`. -/
structure MetaRow where
  table_name : String
  key : String
  value : String
deriving DecidableEq, Repr

/-- A user-table row: an ordered mapping column name → value (the
dictionaries built by `_feature_blobs_to_dict` and the row objects of
the diff query). -/
abbrev Feature : Type := List (String × SqlValue)

/-- The working-copy database state of one GeoPackage file. -/
structure Db where
  kxgMap : List MapRow
  kxgMeta : List MetaRow
  userRows : List Feature
  metaInfo : List (String × String)
deriving DecidableEq, Repr

/-- `SELECT value FROM __kxg_meta WHERE table_name=? AND key=?` followed
by `fetchone()[0]`:  the first matching row's value. -/
def metaLookup (db : Db) (t k : String) : Option String :=
  (db.kxgMeta.find? (fun r => decide (r.table_name = t ∧ r.key = k))).map
    (fun r => r.value)

/-- Modelled from the spec: a repository tree, reduced to the parts the
working-copy engine reads.  `hex` is the tree id; `meta` maps a meta-item
name to the canonical JSON bytes of its blob under `layer/meta/`;
`features` maps a feature key to the decoded column dictionary of the
feature sub-tree `layer/features/fk[0:4]/fk/`.  Trees are
content-addressed and immutable, so the structural diff of two meta
sub-trees is empty exactly when their contents are equal. -/
structure RepoTree where
  hex : String
  meta : List (String × String)
  features : List (String × Feature)
deriving DecidableEq, Repr

/-- Look up the blob value of meta item `n` in a tree; a name absent from
the tree reads as the empty JSON list `[]` (`_build_db_diff`). -/
def treeMetaValue (tree : RepoTree) (n : String) : String :=
  ((tree.meta.find? (fun kv => decide (kv.1 = n))).map (fun kv => kv.2)).getD "[]"

/-- Look up a feature sub-tree by feature key. -/
def treeFeature (tree : RepoTree) (fk : String) : Option Feature :=
  (tree.features.find? (fun kv => decide (kv.1 = fk))).map (fun kv => kv.2)

/-! ### Triggers (`_create_triggers`) -/

/-- Effect of the AFTER-INSERT trigger `__kxg_<table>_ins` on `__kxg_map`:
`INSERT INTO __kxg_map VALUES (table, NULL, NEW.pk, 1)`. -/
def applyInsTrigger (t : String) (newPk : SqlValue) (m : List MapRow) :
    List MapRow :=
  m ++ [⟨t, none, newPk, 1⟩]

/-- Per-row effect of the AFTER-UPDATE trigger `__kxg_<table>_upd`:
`UPDATE __kxg_map SET state=1, feature_id=NEW.pk WHERE table_name=t AND
feature_id=OLD.pk AND state >= 0`. -/
def updTrigRow (t : String) (oldPk newPk : SqlValue) (r : MapRow) : MapRow :=
  if r.table_name = t ∧ sqlEq r.feature_id oldPk ∧ 0 ≤ r.state then
    { r with state := 1, feature_id := newPk }
  else r

/-- Effect of the AFTER-UPDATE trigger on the whole of `__kxg_map`. -/
def applyUpdTrigger (t : String) (oldPk newPk : SqlValue) (m : List MapRow) :
    List MapRow :=
  m.map (updTrigRow t oldPk newPk)

/-- Per-row effect of the AFTER-DELETE trigger `__kxg_<table>_del`:
`UPDATE __kxg_map SET state=-1 WHERE table_name=t AND feature_id=OLD.pk`
(no state guard). -/
def delTrigRow (t : String) (oldPk : SqlValue) (r : MapRow) : MapRow :=
  if r.table_name = t ∧ sqlEq r.feature_id oldPk then { r with state := -1 }
  else r

/-- Effect of the AFTER-DELETE trigger on the whole of `__kxg_map`. -/
def applyDelTrigger (t : String) (oldPk : SqlValue) (m : List MapRow) :
    List MapRow :=
  m.map (delTrigRow t oldPk)

/-! ### Working-copy diff (`_build_db_diff`) -/

/-- Error kinds of the working-copy engine.  Each constructor corresponds
to one `raise` site (or a crash on a violated expectation):
`workingCopyMismatch` = `WorkingCopyMismatch(stored, expected)`,
`dirtyWorkingCopy` = `ClickException("You have uncommitted changes…")`,
`unsupportedMetaSchema` = `NotImplementedError("Sorry, no way to do
changeset/meta/schema updates yet")`, `noChanges` =
`ClickException("No changes to commit")`, `missingKey` = a `KeyError` /
`fetchone()` on no row, `assertViolation` = a failed `assert`. -/
inductive WcErr where
  | workingCopyMismatch (stored expected : String)
  | dirtyWorkingCopy
  | unsupportedMetaSchema
  | noChanges
  | missingKey
  | assertViolation (msg : String)
deriving DecidableEq, Repr

/-- Column value of a row by column name (dictionary access `row[k]`). -/
def rowValue (pkField : String) (f : Feature) : Option SqlValue :=
  (f.find? (fun kv => decide (kv.1 = pkField))).map (fun kv => kv.2)

/-- The `LEFT OUTER JOIN` of a `__kxg_map` row onto the user table
(`ON M.feature_id = T.pk`): the first user row whose primary-key value
compares SQL-equal to `fid`. -/
def joinUserRow (db : Db) (pkField : String) (fid : SqlValue) : Option Feature :=
  db.userRows.find? (fun f =>
    match rowValue pkField f with
    | some v => decide (sqlEq v fid)
    | none => false)

/-- The joined row object `o` of the diff query: the columns of the user
row whose primary key equals the map row's `feature_id`.  When the left
outer join finds no user row every user column reads NULL; the claims
never inspect those values and the model uses the empty dictionary. -/
def joinedObj (db : Db) (pkField : String) (r : MapRow) : Feature :=
  (joinUserRow db pkField r.feature_id).getD []

/-- The rows selected by `diff_sql` in `_build_db_diff`: map rows of the
layer with `state != 0`, dropping insert-then-delete rows
(`feature_key IS NULL AND state < 0`).  The `ORDER BY feature_key` of the
source is omitted; no verified property is order-sensitive. -/
def diffSqlRows (t : String) (db : Db) : List MapRow :=
  db.kxgMap.filter (fun r =>
    decide (r.table_name = t ∧ r.state ≠ 0 ∧
      ¬(r.feature_key = none ∧ r.state < 0)))

/-- The structured working-copy diff built by `_build_db_diff`:
`metaD` is the meta diff (name, tree value, db value), `inserts` the new
row objects, `updates` the `(fk, repo_obj, db_obj)` pairs that actually
differ, `deletes` the feature keys of all tombstones (the key set of
`results["D"]`, which starts as all of `candidates["D"]`). -/
structure DbDiff where
  metaD : List (String × String × String)
  inserts : List Feature
  updates : List (String × Feature × Feature)
  deletes : List String
deriving DecidableEq, Repr

/-- Embedding of `_build_db_diff`: meta diff from the serializer output
against the tree's meta blobs, then classification of the `diff_sql`
rows into insert/update/delete, then for updates and deletes a lookup of
the feature sub-tree (a feature key absent from the tree raises, modelled
as `missingKey`); an update is kept when the item sets of the repository
object and the database object differ (`s_old ^ s_new`). -/
def buildDbDiff (tree : RepoTree) (t pkField : String) (db : Db) :
    Except WcErr DbDiff :=
  let metaD := (db.metaInfo.filter
      (fun nv => decide (treeMetaValue tree nv.1 ≠ nv.2))).map
    (fun nv => (nv.1, treeMetaValue tree nv.1, nv.2))
  let rows := diffSqlRows t db
  let candD := (rows.filter (fun r => decide (r.state < 0))).map
    (fun r => r.feature_key.getD "")
  let candI := (rows.filter
      (fun r => decide (0 ≤ r.state ∧ r.feature_key = none))).map
    (joinedObj db pkField)
  let candU := (rows.filter
      (fun r => decide (0 ≤ r.state ∧ r.feature_key ≠ none))).map
    (fun r => (r.feature_key.getD "", joinedObj db pkField r))
  match candU.mapM (fun p =>
      match treeFeature tree p.1 with
      | some repoObj => Except.ok (p.1, repoObj, p.2)
      | none => Except.error WcErr.missingKey) with
  | .error e => .error e
  | .ok uAll =>
    match candD.mapM (fun fk =>
        match treeFeature tree fk with
        | some _ => Except.ok fk
        | none => Except.error WcErr.missingKey) with
    | .error e => .error e
    | .ok dAll =>
      .ok { metaD := metaD, inserts := candI,
            updates := uAll.filter
              (fun q => decide (q.2.1.toFinset ≠ q.2.2.toFinset)),
            deletes := dAll }

/-! ### Commit (`commit`) -/

/-- One iteration of the commit delete loop:
`DELETE FROM __kxg_map WHERE table_name=? AND feature_key=?` followed by
`assert dbcur.rowcount == 1`. -/
def commitDeleteMapRow (t fk : String) (m : List MapRow) :
    Except WcErr (List MapRow) :=
  let keep := m.filter (fun r =>
    decide (¬(r.table_name = t ∧ r.feature_key = some fk)))
  if m.length = keep.length + 1 then .ok keep
  else .error (.assertViolation "kxg_map delete: expected 1 change")

/-- Embedding of the `commit` command's effect on the working copy, for
one layer `t`.  The git side is abstracted: `uuids i` is the fresh UUID
minted for the i-th insert, `newTreeHex` the id of the tree written by
`git_index.write_tree`.  Steps, in source order: assert the stored tree
matches HEAD's tree, build the diff, refuse an empty diff, delete the map
row of every delete, insert a fresh `(fk, pk, state=0)` map row per
insert, delete the layer's NULL-feature-key map rows, reset every
remaining nonzero state to 0, and update `__kxg_meta.tree` (asserting
exactly one row changed).  Any error rolls the transaction back. -/
def commitOp (t pkField : String) (tree : RepoTree) (uuids : Nat → String)
    (newTreeHex : String) (db : Db) : Except WcErr (Db × String) :=
  match metaLookup db t "tree" with
  | none => .error .missingKey
  | some stored =>
    if stored ≠ tree.hex then .error (.workingCopyMismatch stored tree.hex)
    else
      match buildDbDiff tree t pkField db with
      | .error e => .error e
      | .ok d =>
        if d.metaD = [] ∧ d.inserts = [] ∧ d.updates = [] ∧ d.deletes = [] then
          .error .noChanges
        else
          match d.deletes.foldlM (fun m fk => commitDeleteMapRow t fk m)
              db.kxgMap with
          | .error e => .error e
          | .ok m1 =>
            match (d.inserts.enum.foldlM (fun (m : List MapRow) (p : Nat × Feature) =>
                match rowValue pkField p.2 with
                | none => Except.error WcErr.missingKey
                | some v =>
                  Except.ok (m ++ [⟨t, some (uuids p.1), v, 0⟩])) m1 :
                Except WcErr (List MapRow)) with
            | .error e => .error e
            | .ok m2 =>
              let m3 := m2.filter (fun r =>
                decide (¬(r.table_name = t ∧ r.feature_key = none)))
              let m4 := m3.map (fun r =>
                if r.table_name = t ∧ r.state ≠ 0 then { r with state := 0 }
                else r)
              let newMeta := db.kxgMeta.map (fun r =>
                if r.table_name = t ∧ r.key = "tree" then
                  { r with value := newTreeHex }
                else r)
              if db.kxgMeta.countP (fun r =>
                  decide (r.table_name = t ∧ r.key = "tree")) = 1 then
                .ok ({ db with kxgMap := m4, kxgMeta := newMeta }, newTreeHex)
              else .error (.assertViolation "kxg_meta update: expected 1 change")

/-- HEAD after running `commit`: `repo.create_commit("HEAD", …)` advances
HEAD only when the command succeeds; on any error the transaction rolls
back and HEAD is untouched. -/
def headAfterCommit (head newCommit : String) (t pkField : String)
    (tree : RepoTree) (uuids : Nat → String) (newTreeHex : String)
    (db : Db) : String :=
  match commitOp t pkField tree uuids newTreeHex db with
  | .ok _ => newCommit
  | .error _ => head

/-! ### Update checkout (`_checkout_update`) -/

/-- `UPDATE __kxg_meta SET value=? WHERE table_name=? AND key='tree'`. -/
def setMetaTree (t v : String) (db : Db) : Db :=
  { db with kxgMeta := db.kxgMeta.map (fun r =>
      if r.table_name = t ∧ r.key = "tree" then { r with value := v } else r) }

/-- Embedding of the body of `_checkout_update` for layer `t`, in source
order: read the stored tree id and compare it with the base tree
(`_assert_db_tree_match`; under `force` a mismatch falls back to looking
the stored id up in the repository); count dirty map rows
(`SELECT COUNT(*) FROM __kxg_map WHERE state != 0`, no layer filter) and
refuse without `force`; with `force` and a dirty copy run the
reset-changes block (`resetFn`, an index diff through the external git
library); refuse any meta difference between the (possibly substituted)
base tree and the target tree; apply the tree-to-tree feature deltas and
the `gpkg_contents` refresh (`applyFn`, driven by the external structural
diff); finally record the new tree id in `__kxg_meta`. -/
def checkoutUpdateBody (t : String) (force : Bool) (base newTree : RepoTree)
    (repoLookup : String → Option RepoTree)
    (resetFn applyFn : Db → Except WcErr Db) (db : Db) : Except WcErr Db :=
  match metaLookup db t "tree" with
  | none => .error .missingKey
  | some stored =>
    let baseE : Except WcErr RepoTree :=
      if stored = base.hex then .ok base
      else if force then
        match repoLookup stored with
        | some bt => .ok bt
        | none => .error (.workingCopyMismatch stored base.hex)
      else .error (.workingCopyMismatch stored base.hex)
    match baseE with
    | .error e => .error e
    | .ok base2 =>
      let isDirty := db.kxgMap.any (fun r => decide (r.state ≠ 0))
      if isDirty && !force then .error .dirtyWorkingCopy
      else
        match (if isDirty then resetFn db else .ok db) with
        | .error e => .error e
        | .ok db1 =>
          if base2.meta ≠ newTree.meta then .error .unsupportedMetaSchema
          else
            match applyFn db1 with
            | .error e => .error e
            | .ok db2 => .ok (setMetaTree t newTree.hex db2)

/-- `_checkout_update` runs its body inside one transaction (`with db:`):
on success the new state is committed, on any exception the transaction
rolls back and the working copy is unchanged; the error is surfaced. -/
def checkoutUpdate (t : String) (force : Bool) (base newTree : RepoTree)
    (repoLookup : String → Option RepoTree)
    (resetFn applyFn : Db → Except WcErr Db) (db : Db) : Db × Option WcErr :=
  match checkoutUpdateBody t force base newTree repoLookup resetFn applyFn db with
  | .ok db2 => (db2, none)
  | .error e => (db, some e)

/-! ## Theorems -/

/-- C9: each of the four public geometry-codec operations `geom_to_ogr`,
`geom_to_ewkb`, `hexewkb_to_geom` and `geom_envelope` maps the input
`None` to `None` without error: `None` is a fixed point of the codec at
the public interface. -/
theorem codec_none_fixed_point
    (createGeometryFromWkb : List Nat → Option (List Nat))
    (assignSpatialReference : List Nat → Int → List Nat)
    (parse_srs : Bool)
    (ogrEnvelope : List Nat → Except GeomErr (List Nat)) :
    geom_to_ogr createGeometryFromWkb assignSpatialReference none parse_srs
        = .ok none ∧
      geom_to_ewkb none = .ok none ∧
      hexewkb_to_geom none = .ok none ∧
      geom_envelope ogrEnvelope none = .ok none :=
  ⟨rfl, rfl, rfl, rfl⟩

/-- Witness for C9 at concrete external functions. -/
theorem codec_none_fixed_point_witness :
    geom_to_ogr (fun _ => none) (fun g _ => g) none true = .ok none ∧
      geom_to_ewkb none = .ok none ∧
      hexewkb_to_geom none = .ok none ∧
      geom_envelope (fun _ => .ok []) none = .ok none :=
  codec_none_fixed_point (fun _ => none) (fun g _ => g) true (fun _ => .ok [])

/-- C10: the AFTER-UPDATE trigger is a per-row map that only modifies
`__kxg_map` rows with `state ≥ 0`; a deletion tombstone (`state = -1`) is
left exactly unchanged (neither its state nor its `feature_id` moves) by
any user UPDATE. -/
theorem upd_trigger_fixes_tombstones (t : String) (o n : SqlValue)
    (rows : List MapRow) :
    applyUpdTrigger t o n rows = rows.map (updTrigRow t o n) ∧
      (∀ r ∈ rows, r.state = -1 → updTrigRow t o n r = r) ∧
      (∀ r : MapRow, updTrigRow t o n r ≠ r → 0 ≤ r.state) := by
  refine ⟨rfl, ?_, ?_⟩
  · intro r _ hst
    unfold updTrigRow
    rw [if_neg]
    rintro ⟨-, -, hge⟩
    omega
  · intro r hne
    by_cases h : r.table_name = t ∧ sqlEq r.feature_id o ∧ 0 ≤ r.state
    · exact h.2.2
    · exact absurd (by unfold updTrigRow; rw [if_neg h]) hne

/-- Witness for C10: a concrete tombstone row survives a concrete user
UPDATE untouched. -/
theorem upd_trigger_fixes_tombstones_witness :
    updTrigRow "observations" (SqlValue.int 7) (SqlValue.int 9)
        ⟨"observations", some "aaaa", SqlValue.int 7, -1⟩ =
      ⟨"observations", some "aaaa", SqlValue.int 7, -1⟩ :=
  (upd_trigger_fixes_tombstones "observations" (SqlValue.int 7)
      (SqlValue.int 9)
      [⟨"observations", some "aaaa", SqlValue.int 7, -1⟩]).2.1
    ⟨"observations", some "aaaa", SqlValue.int 7, -1⟩ (by simp) rfl

/-- C2 (amended): for an update-checkout without `force`, a stored tree id
differing from the base tree's id raises `WorkingCopyMismatch` and leaves
the working copy unchanged; and when the stored tree id does match the
base tree, any `__kxg_map` row with `state ≠ 0` makes the operation
refuse with the uncommitted-changes error, again leaving the working copy
unchanged.  (The tree-match assertion runs first, so when both conditions
hold the mismatch error wins; the original claim's second conjunct holds
only under a matching stored tree.) -/
theorem checkout_update_guards (t : String) (base newTree : RepoTree)
    (repoLookup : String → Option RepoTree)
    (resetFn applyFn : Db → Except WcErr Db) (db : Db) (stored : String)
    (hstored : metaLookup db t "tree" = some stored) :
    (stored ≠ base.hex →
      checkoutUpdate t false base newTree repoLookup resetFn applyFn db =
        (db, some (WcErr.workingCopyMismatch stored base.hex))) ∧
    (stored = base.hex → (∃ r ∈ db.kxgMap, r.state ≠ 0) →
      checkoutUpdate t false base newTree repoLookup resetFn applyFn db =
        (db, some WcErr.dirtyWorkingCopy)) := by
  constructor
  · intro hne
    unfold checkoutUpdate checkoutUpdateBody
    rw [hstored]
    simp [hne]
  · intro heq hdirty
    have hex : ∃ x ∈ db.kxgMap, ¬x.state = 0 := by
      obtain ⟨r, hr, hst⟩ := hdirty
      exact ⟨r, hr, hst⟩
    unfold checkoutUpdate checkoutUpdateBody
    rw [hstored]
    simp [heq, hex]

/-- Witness for C2 (amended), both conjuncts at concrete states. -/
theorem checkout_update_guards_witness :
    (checkoutUpdate "L" false ⟨"bbbb", [], []⟩ ⟨"bbbb", [], []⟩
        (fun _ => none) Except.ok Except.ok
        ⟨[], [⟨"L", "tree", "aaaa"⟩], [], []⟩ =
      (⟨[], [⟨"L", "tree", "aaaa"⟩], [], []⟩,
        some (WcErr.workingCopyMismatch "aaaa" "bbbb"))) ∧
    (checkoutUpdate "L" false ⟨"cccc", [], []⟩ ⟨"cccc", [], []⟩
        (fun _ => none) Except.ok Except.ok
        ⟨[⟨"L", some "k", SqlValue.int 1, 1⟩], [⟨"L", "tree", "cccc"⟩], [], []⟩ =
      (⟨[⟨"L", some "k", SqlValue.int 1, 1⟩], [⟨"L", "tree", "cccc"⟩], [], []⟩,
        some WcErr.dirtyWorkingCopy)) := by
  constructor
  · exact (checkout_update_guards "L" ⟨"bbbb", [], []⟩ ⟨"bbbb", [], []⟩
      (fun _ => none) Except.ok Except.ok
      ⟨[], [⟨"L", "tree", "aaaa"⟩], [], []⟩ "aaaa" rfl).1 (by decide)
  · exact (checkout_update_guards "L" ⟨"cccc", [], []⟩ ⟨"cccc", [], []⟩
      (fun _ => none) Except.ok Except.ok
      ⟨[⟨"L", some "k", SqlValue.int 1, 1⟩], [⟨"L", "tree", "cccc"⟩], [], []⟩
      "cccc" rfl).2 rfl
      ⟨⟨"L", some "k", SqlValue.int 1, 1⟩, by simp, by decide⟩

/-- Counterexample to C2 as stated: a working copy that is both dirty
(a `__kxg_map` row with `state = 1`) and stored at a tree `aaaa` other
than the base tree `bbbb`.  The claim's second conjunct demands the
uncommitted-changes refusal, but the operation raises
`WorkingCopyMismatch` (the tree assertion runs first). -/
theorem checkout_update_guards_counterexample :
    ((⟨[⟨"L", some "k", SqlValue.int 1, 1⟩], [⟨"L", "tree", "aaaa"⟩], [], []⟩ :
        Db).kxgMap.any (fun r => decide (r.state ≠ 0)) = true) ∧
    checkoutUpdate "L" false ⟨"bbbb", [], []⟩ ⟨"bbbb", [], []⟩
        (fun _ => none) Except.ok Except.ok
        ⟨[⟨"L", some "k", SqlValue.int 1, 1⟩], [⟨"L", "tree", "aaaa"⟩], [], []⟩ ≠
      (⟨[⟨"L", some "k", SqlValue.int 1, 1⟩], [⟨"L", "tree", "aaaa"⟩], [], []⟩,
        some WcErr.dirtyWorkingCopy) := by
  constructor
  · decide
  · decide

/-- C3 (amended): update-checkout between two trees whose layer meta
sub-trees differ fails with the `Unsupported` ("no way to do
changeset/meta/schema updates yet") error and leaves the working copy
unchanged, provided the working copy is at the base tree and has no
uncommitted changes (every `__kxg_map.state = 0`). -/
theorem checkout_update_meta_diff_refused (t : String) (force : Bool)
    (base newTree : RepoTree) (repoLookup : String → Option RepoTree)
    (resetFn applyFn : Db → Except WcErr Db) (db : Db)
    (hstored : metaLookup db t "tree" = some base.hex)
    (hclean : ∀ r ∈ db.kxgMap, r.state = 0)
    (hmeta : base.meta ≠ newTree.meta) :
    checkoutUpdate t force base newTree repoLookup resetFn applyFn db =
      (db, some WcErr.unsupportedMetaSchema) := by
  have hnex : ¬∃ x ∈ db.kxgMap, ¬x.state = 0 := by
    rintro ⟨r, hr, h⟩
    exact h (hclean r hr)
  unfold checkoutUpdate checkoutUpdateBody
  rw [hstored]
  simp [hnex, hmeta]

/-- Witness for C3 (amended) at a concrete clean working copy and two
concrete trees with differing meta sub-trees. -/
theorem checkout_update_meta_diff_refused_witness :
    checkoutUpdate "L" false ⟨"t1", [("gpkg_contents", "A")], []⟩
        ⟨"t2", [("gpkg_contents", "B")], []⟩ (fun _ => none)
        Except.ok Except.ok
        ⟨[⟨"L", some "k", SqlValue.int 1, 0⟩], [⟨"L", "tree", "t1"⟩], [], []⟩ =
      (⟨[⟨"L", some "k", SqlValue.int 1, 0⟩], [⟨"L", "tree", "t1"⟩], [], []⟩,
        some WcErr.unsupportedMetaSchema) :=
  checkout_update_meta_diff_refused "L" false
    ⟨"t1", [("gpkg_contents", "A")], []⟩ ⟨"t2", [("gpkg_contents", "B")], []⟩
    (fun _ => none) Except.ok Except.ok
    ⟨[⟨"L", some "k", SqlValue.int 1, 0⟩], [⟨"L", "tree", "t1"⟩], [], []⟩
    rfl (by decide) (by decide)

/-- Counterexample to C3 as stated: the trees' meta sub-trees differ, but
the working copy (at the base tree) is dirty and `force` is not set, so
the operation refuses with the uncommitted-changes error instead of the
`Unsupported` meta/schema error. -/
theorem checkout_update_meta_diff_counterexample :
    checkoutUpdate "L" false ⟨"t1", [("gpkg_contents", "A")], []⟩
        ⟨"t2", [("gpkg_contents", "B")], []⟩ (fun _ => none)
        Except.ok Except.ok
        ⟨[⟨"L", some "k", SqlValue.int 1, 1⟩], [⟨"L", "tree", "t1"⟩], [], []⟩ =
      (⟨[⟨"L", some "k", SqlValue.int 1, 1⟩], [⟨"L", "tree", "t1"⟩], [], []⟩,
        some WcErr.dirtyWorkingCopy) := by
  decide

/-- After the commit pipeline's NULL-feature-key purge and state reset,
every map row of the layer has state 0 and a non-NULL feature key
(independently of the map contents the earlier steps produced). -/
theorem commit_map_final_props (t : String) (m2 : List MapRow) :
    ∀ r ∈ (m2.filter (fun r =>
        decide (¬(r.table_name = t ∧ r.feature_key = none)))).map
      (fun r => if r.table_name = t ∧ r.state ≠ 0 then { r with state := 0 }
        else r),
      r.table_name = t → r.state = 0 ∧ r.feature_key ≠ none := by
  intro r hr
  obtain ⟨r0, hr0, rfl⟩ := List.mem_map.mp hr
  have hfil := (List.mem_filter.mp hr0).2
  rw [decide_eq_true_eq] at hfil
  by_cases h0 : r0.table_name = t ∧ r0.state ≠ 0
  · rw [if_pos h0]
    intro ht
    exact ⟨rfl, fun hk => hfil ⟨h0.1, hk⟩⟩
  · rw [if_neg h0]
    intro ht
    refine ⟨?_, fun hk => hfil ⟨ht, hk⟩⟩
    by_contra hs
    exact h0 ⟨ht, hs⟩

/-- After `UPDATE __kxg_meta SET value=? WHERE table_name=? AND
key='tree'`, every `(t, 'tree')` row carries the new value. -/
theorem setTreeValue_props (t v : String) (meta : List MetaRow) :
    ∀ m ∈ meta.map (fun r =>
        if r.table_name = t ∧ r.key = "tree" then { r with value := v }
        else r),
      m.table_name = t → m.key = "tree" → m.value = v := by
  intro m hm
  obtain ⟨r0, hr0, rfl⟩ := List.mem_map.mp hm
  by_cases h0 : r0.table_name = t ∧ r0.key = "tree"
  · rw [if_pos h0]
    intro _ _
    rfl
  · rw [if_neg h0]
    intro ht hk
    exact absurd ⟨ht, hk⟩ h0

/-- C1: after any successful `commit` of layer `t`, every `__kxg_map`
row of that layer has `state = 0`, none of them has a NULL
`feature_key`, and the layer's `__kxg_meta` value under `key='tree'` is
the hex id of the newly written tree. -/
theorem commit_resets_map_and_meta (t pkField : String) (tree : RepoTree)
    (uuids : Nat → String) (newTreeHex : String) (db dbOut : Db)
    (outTree : String)
    (h : commitOp t pkField tree uuids newTreeHex db = .ok (dbOut, outTree)) :
    (∀ r ∈ dbOut.kxgMap, r.table_name = t →
      r.state = 0 ∧ r.feature_key ≠ none) ∧
    (∀ m ∈ dbOut.kxgMeta, m.table_name = t → m.key = "tree" →
      m.value = outTree) := by
  unfold commitOp at h
  split at h
  · simp at h
  split at h
  · simp at h
  split at h
  · simp at h
  split at h
  · simp at h
  split at h
  · simp at h
  split at h
  · simp at h
  split at h
  · simp only [Except.ok.injEq, Prod.mk.injEq] at h
    obtain ⟨hdb, htree⟩ := h
    subst hdb
    subst htree
    exact ⟨commit_map_final_props t _, setTreeValue_props t newTreeHex db.kxgMeta⟩
  · simp at h

/-- Witness for C1: a concrete commit of one inserted row (PK 42)
succeeds, and the resulting side tables satisfy the invariant. -/
theorem commit_resets_map_and_meta_witness :
    (∀ r ∈ (Db.mk [⟨"L", some "fk01", SqlValue.int 42, 0⟩]
        [⟨"L", "tree", "T1"⟩] [[("pk", SqlValue.int 42)]]
        [("gpkg_contents", "X")]).kxgMap,
      r.table_name = "L" → r.state = 0 ∧ r.feature_key ≠ none) ∧
    (∀ m ∈ (Db.mk [⟨"L", some "fk01", SqlValue.int 42, 0⟩]
        [⟨"L", "tree", "T1"⟩] [[("pk", SqlValue.int 42)]]
        [("gpkg_contents", "X")]).kxgMeta,
      m.table_name = "L" → m.key = "tree" → m.value = "T1") :=
  commit_resets_map_and_meta "L" "pk" ⟨"T0", [("gpkg_contents", "X")], []⟩
    (fun _ => "fk01") "T1"
    (Db.mk [⟨"L", none, SqlValue.int 42, 1⟩] [⟨"L", "tree", "T0"⟩]
      [[("pk", SqlValue.int 42)]] [("gpkg_contents", "X")])
    (Db.mk [⟨"L", some "fk01", SqlValue.int 42, 0⟩] [⟨"L", "tree", "T1"⟩]
      [[("pk", SqlValue.int 42)]] [("gpkg_contents", "X")])
    "T1" (by decide)

/-- On a clean working copy (all map states of the layer 0, serializer
output matching the tree's meta blobs) the working-copy diff is empty. -/
theorem buildDbDiff_clean (tree : RepoTree) (t pkField : String) (db : Db)
    (hclean : ∀ r ∈ db.kxgMap, r.table_name = t → r.state = 0)
    (hmeta : ∀ nv ∈ db.metaInfo, treeMetaValue tree nv.1 = nv.2) :
    buildDbDiff tree t pkField db = .ok ⟨[], [], [], []⟩ := by
  have hrows : diffSqlRows t db = [] := by
    rw [diffSqlRows, List.filter_eq_nil_iff]
    intro r hr
    rw [decide_eq_true_eq]
    rintro ⟨ht, hs, -⟩
    exact hs (hclean r hr ht)
  have hmetaD : db.metaInfo.filter
      (fun nv => decide (treeMetaValue tree nv.1 ≠ nv.2)) = [] := by
    rw [List.filter_eq_nil_iff]
    intro nv hnv
    rw [decide_eq_true_eq]
    intro hne
    exact hne (hmeta nv hnv)
  unfold buildDbDiff
  rw [hrows, hmetaD]
  rfl

/-- C7 (amended): checking out a tree `T` and then running `commit` with
no intervening edits writes no new tree: the commit command fails with
the "No changes to commit" error, and HEAD (hence HEAD's tree, `T`) is
unchanged.  The freshly-checked-out state is characterized by its
invariants: `__kxg_meta.tree` equals `T.hex`, every map row of the layer
has `state = 0`, and the serializer output matches the tree's meta
blobs. -/
theorem commit_after_checkout_noop (t pkField : String) (tree : RepoTree)
    (uuids : Nat → String) (newTreeHex head newCommit : String) (db : Db)
    (hstored : metaLookup db t "tree" = some tree.hex)
    (hclean : ∀ r ∈ db.kxgMap, r.table_name = t → r.state = 0)
    (hmeta : ∀ nv ∈ db.metaInfo, treeMetaValue tree nv.1 = nv.2) :
    commitOp t pkField tree uuids newTreeHex db = .error .noChanges ∧
      headAfterCommit head newCommit t pkField tree uuids newTreeHex db =
        head := by
  have hcommit : commitOp t pkField tree uuids newTreeHex db =
      .error .noChanges := by
    unfold commitOp
    rw [hstored, buildDbDiff_clean tree t pkField db hclean hmeta]
    simp
  exact ⟨hcommit, by unfold headAfterCommit; rw [hcommit]⟩

/-- Witness for C7 (amended) at a concrete freshly-checked-out state. -/
theorem commit_after_checkout_noop_witness :
    commitOp "L" "pk" ⟨"T0", [("gpkg_contents", "X")], [("fk01", [("pk", SqlValue.int 1)])]⟩
        (fun _ => "u") "T1"
        (Db.mk [⟨"L", some "fk01", SqlValue.int 1, 0⟩] [⟨"L", "tree", "T0"⟩]
          [[("pk", SqlValue.int 1)]] [("gpkg_contents", "X")]) =
      .error .noChanges ∧
    headAfterCommit "C0" "C1" "L" "pk"
        ⟨"T0", [("gpkg_contents", "X")], [("fk01", [("pk", SqlValue.int 1)])]⟩
        (fun _ => "u") "T1"
        (Db.mk [⟨"L", some "fk01", SqlValue.int 1, 0⟩] [⟨"L", "tree", "T0"⟩]
          [[("pk", SqlValue.int 1)]] [("gpkg_contents", "X")]) = "C0" :=
  commit_after_checkout_noop "L" "pk"
    ⟨"T0", [("gpkg_contents", "X")], [("fk01", [("pk", SqlValue.int 1)])]⟩
    (fun _ => "u") "T1" "C0" "C1"
    (Db.mk [⟨"L", some "fk01", SqlValue.int 1, 0⟩] [⟨"L", "tree", "T0"⟩]
      [[("pk", SqlValue.int 1)]] [("gpkg_contents", "X")])
    rfl (by decide) (by decide)

/-- Counterexample to C7 as stated: at a concrete freshly-checked-out
working copy of tree `T0`, `commit` does not "produce exactly tree T0":
it produces no tree at all, failing with the "No changes to commit"
error (`click.ClickException`). -/
theorem commit_after_checkout_counterexample :
    commitOp "L" "pk" ⟨"T0", [("gpkg_contents", "X")], []⟩ (fun _ => "u") "T1"
        (Db.mk [] [⟨"L", "tree", "T0"⟩] [] [("gpkg_contents", "X")]) =
      .error .noChanges := by
  decide

/-- A list with at least `off + 1` elements decomposes at `off`. -/
theorem drop_eq_getD_cons (g : List Nat) (off : Nat) (h : off < g.length) :
    g.drop off = g.getD off 0 :: g.drop (off + 1) := by
  induction g generalizing off with
  | nil => simp at h
  | cons a tl ih =>
    cases off with
    | zero => simp
    | succ n =>
      simp only [List.drop_succ_cons, List.getD_cons_succ]
      exact ih n (by simpa using h)

/-- `readU32` on a buffer long enough reads the four bytes at `off`. -/
theorem readU32_eq (le : Bool) (g : List Nat) (off : Nat)
    (h : off + 4 ≤ g.length) :
    readU32 le g off = some (u32dec4 le (g.getD off 0) (g.getD (off + 1) 0)
      (g.getD (off + 2) 0) (g.getD (off + 3) 0)) := by
  unfold readU32
  rw [drop_eq_getD_cons g off (by omega), drop_eq_getD_cons g (off + 1) (by omega),
    drop_eq_getD_cons g (off + 2) (by omega), drop_eq_getD_cons g (off + 3) (by omega)]

/-- `readU8` on a buffer long enough reads the byte at `i`. -/
theorem readU8_eq (g : List Nat) (i : Nat) (h : i < g.length) :
    readU8 g i = some (g.getD i 0) := by
  unfold readU8
  rw [List.getElem?_eq_getElem h]
  simp [List.getD_eq_getElem?_getD, List.getElem?_eq_getElem h]

/-- Evaluation of `parse_gpkg_geom` once the 4-byte header is readable:
the result is the version check, then the extended-flag check, then the
envelope-indicator check, then the SRID read. -/
theorem parse_gpkg_geom_of_header (g : List Nat) (hlen : 4 ≤ g.length)
    (htake : g.take 2 = [0x47, 0x50]) :
    parse_gpkg_geom g =
      (if g.getD 2 0 ≠ 0 then .error .unsupportedVersion
       else if g.getD 3 0 &&& 32 ≠ 0 then .error .unsupportedExtended
       else if (g.getD 3 0 &&& 14) >>> 1 = 1 ∨ (g.getD 3 0 &&& 14) >>> 1 = 2 ∨
           (g.getD 3 0 &&& 14) >>> 1 = 3 ∨ (g.getD 3 0 &&& 14) >>> 1 = 4 ∨
           (g.getD 3 0 &&& 14) >>> 1 = 0 then
         match readU32 (g.getD 3 0 &&& 1 != 0) g 4 with
         | some u => .ok (8 + gpbEnvSize ((g.getD 3 0 &&& 14) >>> 1),
             g.getD 3 0 &&& 1 != 0, toI32 u)
         | none => .error .structError
       else .error .invalidEnvelope) := by
  unfold parse_gpkg_geom
  rw [if_neg (not_not_intro htake), readU8_eq g 2 (by omega),
    readU8_eq g 3 (by omega)]

/-- C6 (amended): for every byte-string input, `parse_gpkg_geom` fails
with the `BadGeometry` error exactly when the first two bytes are not
`GP`; when the 4-byte header is readable it fails with an `Unsupported`
error (`NotImplementedError`) if the version byte is nonzero (checked
first) or flag bit 5 (extended) is set; it fails when the envelope
indicator (flag bits 1–3) is 5 or more; and otherwise — provided the
input is at least 8 bytes long, so the SRID field exists — it returns
`(8 + envelope size, is_le, srid)` with the envelope size 0/32/48/48/64
bytes for indicators 0–4. -/
theorem parse_gpkg_geom_cases (g : List Nat) :
    (parse_gpkg_geom g = .error .badGeometry ↔ g.take 2 ≠ [0x47, 0x50]) ∧
    (4 ≤ g.length → g.take 2 = [0x47, 0x50] → g.getD 2 0 ≠ 0 →
      parse_gpkg_geom g = .error .unsupportedVersion) ∧
    (4 ≤ g.length → g.take 2 = [0x47, 0x50] → g.getD 2 0 = 0 →
      g.getD 3 0 &&& 32 ≠ 0 →
      parse_gpkg_geom g = .error .unsupportedExtended) ∧
    (4 ≤ g.length → g.take 2 = [0x47, 0x50] → g.getD 2 0 = 0 →
      g.getD 3 0 &&& 32 = 0 → 5 ≤ (g.getD 3 0 &&& 14) >>> 1 →
      parse_gpkg_geom g = .error .invalidEnvelope) ∧
    (8 ≤ g.length → g.take 2 = [0x47, 0x50] → g.getD 2 0 = 0 →
      g.getD 3 0 &&& 32 = 0 → (g.getD 3 0 &&& 14) >>> 1 ≤ 4 →
      parse_gpkg_geom g = .ok (8 + gpbEnvSize ((g.getD 3 0 &&& 14) >>> 1),
        g.getD 3 0 &&& 1 != 0,
        toI32 (u32dec4 (g.getD 3 0 &&& 1 != 0) (g.getD 4 0) (g.getD 5 0)
          (g.getD 6 0) (g.getD 7 0)))) := by
  refine ⟨?_, ?_, ?_, ?_, ?_⟩
  · by_cases htake : g.take 2 = [0x47, 0x50]
    · refine iff_of_false ?_ (not_not_intro htake)
      by_cases hlen : 4 ≤ g.length
      · rw [parse_gpkg_geom_of_header g hlen htake]
        split
        · simp
        · split
          · simp
          · split
            · split <;> simp
            · simp
      · have h3 : readU8 g 3 = none := by
          unfold readU8
          exact List.getElem?_eq_none (by omega)
        unfold parse_gpkg_geom
        rw [if_neg (not_not_intro htake)]
        rcases h2 : readU8 g 2 with _ | v <;> simp [h2, h3]
    · exact iff_of_true
        (by unfold parse_gpkg_geom; rw [if_pos htake]) htake
  · intro hlen htake hv
    rw [parse_gpkg_geom_of_header g hlen htake, if_pos hv]
  · intro hlen htake hv hext
    rw [parse_gpkg_geom_of_header g hlen htake,
      if_neg (not_not_intro hv), if_pos hext]
  · intro hlen htake hv hext hind
    rw [parse_gpkg_geom_of_header g hlen htake,
      if_neg (not_not_intro hv), if_neg (not_not_intro hext),
      if_neg (by omega)]
  · intro hlen htake hv hext hind
    rw [parse_gpkg_geom_of_header g (by omega) htake,
      if_neg (not_not_intro hv), if_neg (not_not_intro hext),
      if_pos (by omega), readU32_eq _ g 4 (by omega)]

/-- Witness for C6 (amended) at the concrete GPB header `GP`, version 0,
flags 1 (little-endian, no envelope), SRID 4167: the parse returns
`(8, true, 4167)`. -/
theorem parse_gpkg_geom_cases_witness :
    parse_gpkg_geom [0x47, 0x50, 0, 1, 71, 16, 0, 0] =
      .ok (8, true, (4167 : Int)) :=
  ((parse_gpkg_geom_cases [0x47, 0x50, 0, 1, 71, 16, 0, 0]).2.2.2.2
    (by decide) (by decide) (by decide) (by decide) (by decide)).trans
    (by decide)

/-- Counterexample to C6 as stated: the 4-byte input `GP`, version 0,
flags 0 has the right magic, version zero, no extended flag and envelope
indicator 0 (< 5), so the claim requires the triple `(8, is_le, srid)` to
be returned; the code instead dies in `struct.unpack_from` reading the
missing SRID field. -/
theorem parse_gpkg_geom_cases_counterexample :
    parse_gpkg_geom [0x47, 0x50, 0, 0] = .error .structError := by
  decide

/-- The first element of a filtered initial segment of the naturals is
the least element satisfying the predicate. -/
theorem head?_filter_range_least (f : Nat → Bool) (n p : Nat)
    (h : ((List.range n).filter f).head? = some p) :
    f p = true ∧ ∀ q < p, f q = false := by
  induction n with
  | zero => simp at h
  | succ n ih =>
    rw [List.range_succ, List.filter_append, List.head?_append] at h
    cases hh : ((List.range n).filter f).head? with
    | some p0 =>
      rw [hh] at h
      simp only [Option.or_some] at h
      cases h
      exact ih hh
    | none =>
      rw [hh] at h
      simp only [Option.none_or] at h
      have hnil : (List.range n).filter f = [] := by
        rwa [List.head?_eq_none_iff] at hh
      have hbelow : ∀ q < n, f q = false := by
        intro q hq
        have := List.filter_eq_nil_iff.mp hnil q (List.mem_range.mpr hq)
        simpa using this
      by_cases hfn : f n
      · rw [List.filter_cons, if_pos (by simpa using hfn)] at h
        simp only [List.head?_cons, Option.some.injEq] at h
        subst h
        exact ⟨hfn, hbelow⟩
      · rw [List.filter_cons, if_neg (by simpa using hfn)] at h
        simp at h

/-- A pointer-pattern match needs at least the 11 literal characters, so
the match position lies inside the buffer. -/
theorem oidMatchAt_lt_length (b : List Char) (p : Nat)
    (h : oidMatchAt b p = true) : p < b.length := by
  unfold oidMatchAt at h
  simp only [Bool.and_eq_true, beq_iff_eq] at h
  have htake := h.1.1.1.2
  have := congrArg List.length htake
  simp only [List.length_take, List.length_drop] at this
  have : 11 ≤ b.length - p := by
    rw [String.toList] at this
    simp at this
    omega
  omega

/-- C8 (amended): `get_hash_from_pointer_file` returns a hash exactly
when some line of the input matches the MULTILINE pattern
`^oid sha256:([0-9a-fA-F]{64})$` — `oid sha256:` followed by exactly 64
hex characters of either case — and the returned value is the
64-character group of the leftmost such line. -/
theorem get_hash_from_pointer_file_spec (b : List Char) :
    ((get_hash_from_pointer_file b).isSome ↔ ∃ p, oidMatchAt b p = true) ∧
    (∀ h, get_hash_from_pointer_file b = some h →
      ∃ p, oidMatchAt b p = true ∧ (∀ q < p, oidMatchAt b q = false) ∧
        h = ((b.drop p).drop 11).take 64) := by
  constructor
  · constructor
    · intro hs
      unfold get_hash_from_pointer_file at hs
      rw [Option.isSome_map'] at hs
      have hne := List.head?_isSome.mp hs
      obtain ⟨p, hp⟩ := List.exists_mem_of_ne_nil _ hne
      exact ⟨p, (List.mem_filter.mp hp).2⟩
    · rintro ⟨p, hp⟩
      have hplt := oidMatchAt_lt_length b p hp
      have hmem : p ∈ (List.range (b.length + 1)).filter
          (fun q => oidMatchAt b q) :=
        List.mem_filter.mpr ⟨List.mem_range.mpr (by omega), hp⟩
      unfold get_hash_from_pointer_file
      rw [Option.isSome_map']
      exact List.head?_isSome.mpr (List.ne_nil_of_mem hmem)
  · intro h hh
    unfold get_hash_from_pointer_file at hh
    rw [Option.map_eq_some'] at hh
    obtain ⟨p, hp, rfl⟩ := hh
    have hleast := head?_filter_range_least (fun q => oidMatchAt b q) _ _ hp
    exact ⟨p, hleast.1, hleast.2, rfl⟩

/-- Witness for C8 (amended): a concrete pointer file whose `oid` line
carries 64 lowercase hex characters yields a hash. -/
theorem get_hash_from_pointer_file_spec_witness :
    (get_hash_from_pointer_file (String.toList "oid sha256:" ++
      List.replicate 64 'a' ++ [Char.ofNat 10])).isSome :=
  (get_hash_from_pointer_file_spec (String.toList "oid sha256:" ++
    List.replicate 64 'a' ++ [Char.ofNat 10])).1.mpr ⟨0, by decide⟩

/-- Counterexample to C8 as stated: a pointer file whose `oid` line
carries 64 uppercase `A` characters.  The code's pattern
`[0-9a-fA-F]{64}` accepts it and returns the hash, yet no line of the
input matches the claim's lowercase-only pattern
`^oid sha256:([0-9a-f]{64})$`. -/
theorem get_hash_from_pointer_file_counterexample :
    get_hash_from_pointer_file (String.toList "oid sha256:" ++
        List.replicate 64 'A' ++ [Char.ofNat 10]) =
      some (List.replicate 64 'A') ∧
    ((List.range ((String.toList "oid sha256:" ++ List.replicate 64 'A' ++
          [Char.ofNat 10]).length + 1)).all
      (fun p => !(oidMatchLowerAt (String.toList "oid sha256:" ++
        List.replicate 64 'A' ++ [Char.ofNat 10]) p))) = true := by
  constructor <;> decide

/-- Read a byte through a known decomposition of the buffer. -/
theorem readU8_of_drop (g : List Nat) (i a : Nat) (rest : List Nat)
    (h : g.drop i = a :: rest) : readU8 g i = some a := by
  unfold readU8
  have h0 : (g.drop i)[0]? = some a := by rw [h]; simp
  rw [List.getElem?_drop] at h0
  simpa using h0

/-- Read a 32-bit word through a known decomposition of the buffer. -/
theorem readU32_of_drop (le : Bool) (g : List Nat) (off b0 b1 b2 b3 : Nat)
    (rest : List Nat) (h : g.drop off = b0 :: b1 :: b2 :: b3 :: rest) :
    readU32 le g off = some (u32dec4 le b0 b1 b2 b3) := by
  unfold readU32
  rw [h]

/-- Evaluation of `geom_to_ewkb` on an explicitly decomposed GPB value:
magic, version 0, flags, four SRID bytes, an envelope of the size the
flags call for, then the inner WKB (endianness byte, four type-word
bytes, body). -/
theorem geom_to_ewkb_eval (flags s0 s1 s2 s3 w0 t0 t1 t2 t3 : Nat)
    (env body : List Nat)
    (hext : flags &&& 32 = 0)
    (hind : (flags &&& 14) >>> 1 ≤ 4)
    (henv : env.length = gpbEnvSize ((flags &&& 14) >>> 1)) :
    geom_to_ewkb (some ([0x47, 0x50, 0, flags, s0, s1, s2, s3] ++ env ++
        (w0 :: t0 :: t1 :: t2 :: t3 :: body))) =
      .ok (some (w0 :: u32enc (w0 != 0)
          ((u32dec4 (w0 != 0) t0 t1 t2 t3 &&& 0xFFFF) % 1000 |||
            (if (u32dec4 (w0 != 0) t0 t1 t2 t3 &&& 0xFFFF) / 1000 == 1 ||
                (u32dec4 (w0 != 0) t0 t1 t2 t3 &&& 0xFFFF) / 1000 == 3 then
              0x80000000 else 0) |||
            (if (u32dec4 (w0 != 0) t0 t1 t2 t3 &&& 0xFFFF) / 1000 == 2 ||
                (u32dec4 (w0 != 0) t0 t1 t2 t3 &&& 0xFFFF) / 1000 == 3 then
              0x40000000 else 0) |||
            (if toI32 (u32dec4 (flags &&& 1 != 0) s0 s1 s2 s3) > 0 then
              0x20000000 else 0)) ++
        (if toI32 (u32dec4 (flags &&& 1 != 0) s0 s1 s2 s3) > 0 then
          u32enc (w0 != 0)
            (toI32 (u32dec4 (flags &&& 1 != 0) s0 s1 s2 s3)).toNat
        else []) ++ body)) := by
  have hdrop : (([0x47, 0x50, 0, flags, s0, s1, s2, s3] ++ env ++
      (w0 :: t0 :: t1 :: t2 :: t3 :: body)) :
        List Nat).drop (8 + env.length) =
      w0 :: t0 :: t1 :: t2 :: t3 :: body :=
    List.drop_left' (by
      simp only [List.length_append, List.length_cons, List.length_nil])
  have hdrop1 : (([0x47, 0x50, 0, flags, s0, s1, s2, s3] ++ env ++
      (w0 :: t0 :: t1 :: t2 :: t3 :: body)) :
        List Nat).drop (8 + env.length + 1) =
      t0 :: t1 :: t2 :: t3 :: body := by
    have h1 := congrArg (List.drop 1) hdrop
    rwa [List.drop_drop] at h1
  have hdrop5 : (([0x47, 0x50, 0, flags, s0, s1, s2, s3] ++ env ++
      (w0 :: t0 :: t1 :: t2 :: t3 :: body)) :
        List Nat).drop (8 + env.length + 5) = body := by
    have h5 := congrArg (List.drop 5) hdrop
    rwa [List.drop_drop] at h5
  have hparse : parse_gpkg_geom ([0x47, 0x50, 0, flags, s0, s1, s2, s3] ++
      env ++ (w0 :: t0 :: t1 :: t2 :: t3 :: body)) =
      .ok (8 + gpbEnvSize ((flags &&& 14) >>> 1), flags &&& 1 != 0,
        toI32 (u32dec4 (flags &&& 1 != 0) s0 s1 s2 s3)) := by
    rw [parse_gpkg_geom_of_header ([0x47, 0x50, 0, flags, s0, s1, s2, s3] ++
      env ++ (w0 :: t0 :: t1 :: t2 :: t3 :: body)) (by simp) rfl]
    simp only [List.cons_append, List.nil_append, List.getD_cons_zero,
      List.getD_cons_succ]
    rw [if_neg (by omega), if_neg (not_not_intro hext), if_pos (by omega),
      readU32_of_drop (flags &&& 1 != 0)
        (0x47 :: 0x50 :: 0 :: flags :: s0 :: s1 :: s2 :: s3 ::
          (env ++ w0 :: t0 :: t1 :: t2 :: t3 :: body)) 4 s0 s1 s2 s3
        (env ++ w0 :: t0 :: t1 :: t2 :: t3 :: body) rfl]
  simp only [List.getD_cons_zero, List.getD_cons_succ, List.cons_append,
    List.nil_append] at hparse hdrop hdrop1 hdrop5 ⊢
  simp only [geom_to_ewkb, hparse, ← henv, readU8_of_drop _ _ _ _ hdrop,
    readU32_of_drop _ _ _ _ _ _ _ _ hdrop1, hdrop5, List.cons_append,
    List.append_assoc]

/-- C4: for every valid non-empty GPB geometry (magic/version/flags
accepted, envelope of the size the flags call for, a complete inner WKB
header whose type word `t` is a valid 16-bit WKB type word), with SRID
`s` read from the header, `geom_to_ewkb` emits: the inner WKB's
endianness byte; a type word equal to `t % 1000` with bit `0x80000000`
set iff the ISO ZM code `(t &&& 0xFFFF) / 1000` indicates Z (code 1 or
3), bit `0x40000000` set iff it indicates M (code 2 or 3), and bit
`0x20000000` set iff `s > 0`; then the 4-byte SRID exactly when `s > 0`;
then the input's WKB body minus its leading 5-byte header. -/
theorem geom_to_ewkb_spec (flags s0 s1 s2 s3 w0 t0 t1 t2 t3 : Nat)
    (env body : List Nat)
    (hext : flags &&& 32 = 0)
    (hind : (flags &&& 14) >>> 1 ≤ 4)
    (henv : env.length = gpbEnvSize ((flags &&& 14) >>> 1))
    (ht : u32dec4 (w0 != 0) t0 t1 t2 t3 < 65536) :
    geom_to_ewkb (some ([0x47, 0x50, 0, flags, s0, s1, s2, s3] ++ env ++
        (w0 :: t0 :: t1 :: t2 :: t3 :: body))) =
      .ok (some (w0 :: u32enc (w0 != 0)
          (u32dec4 (w0 != 0) t0 t1 t2 t3 % 1000 |||
            (if (u32dec4 (w0 != 0) t0 t1 t2 t3 &&& 0xFFFF) / 1000 = 1 ∨
                (u32dec4 (w0 != 0) t0 t1 t2 t3 &&& 0xFFFF) / 1000 = 3 then
              0x80000000 else 0) |||
            (if (u32dec4 (w0 != 0) t0 t1 t2 t3 &&& 0xFFFF) / 1000 = 2 ∨
                (u32dec4 (w0 != 0) t0 t1 t2 t3 &&& 0xFFFF) / 1000 = 3 then
              0x40000000 else 0) |||
            (if 0 < toI32 (u32dec4 (flags &&& 1 != 0) s0 s1 s2 s3) then
              0x20000000 else 0)) ++
        (if 0 < toI32 (u32dec4 (flags &&& 1 != 0) s0 s1 s2 s3) then
          u32enc (w0 != 0)
            (toI32 (u32dec4 (flags &&& 1 != 0) s0 s1 s2 s3)).toNat
        else []) ++ body)) := by
  rw [geom_to_ewkb_eval flags s0 s1 s2 s3 w0 t0 t1 t2 t3 env body hext hind
    henv]
  have hmask : u32dec4 (w0 != 0) t0 t1 t2 t3 &&& 65535 =
      u32dec4 (w0 != 0) t0 t1 t2 t3 := by
    have h2 := Nat.and_pow_two_sub_one_eq_mod (u32dec4 (w0 != 0) t0 t1 t2 t3) 16
    norm_num at h2
    rw [h2]
    exact Nat.mod_eq_of_lt ht
  simp [hmask]

/-- Witness for C4: the little-endian GPB of `POINT(0 0)` with SRID 4167
and no envelope converts to the expected EWKB bytes. -/
theorem geom_to_ewkb_spec_witness :
    geom_to_ewkb (some ([0x47, 0x50, 0, 1, 71, 16, 0, 0] ++ [] ++
        (1 :: 1 :: 0 :: 0 :: 0 :: List.replicate 16 0))) =
      .ok (some (1 :: u32enc true 0x20000001 ++ u32enc true 4167 ++
        List.replicate 16 0)) :=
  (geom_to_ewkb_spec 1 71 16 0 0 1 1 0 0 0 [] (List.replicate 16 0)
    (by decide) (by decide) (by decide) (by decide)).trans (by decide)

/-- Every byte emitted by `u32enc` is < 256. -/
theorem u32enc_lt (le : Bool) (v : Nat) : ∀ x ∈ u32enc le v, x < 256 := by
  intro x hx
  unfold u32enc at hx
  cases le <;> simp at hx <;>
    rcases hx with h | h | h | h <;> subst h <;> omega

/-- Four bytes decode to a value below 2^32. -/
theorem u32dec4_lt (le : Bool) (b0 b1 b2 b3 : Nat) (h0 : b0 < 256)
    (h1 : b1 < 256) (h2 : b2 < 256) (h3 : b3 < 256) :
    u32dec4 le b0 b1 b2 b3 < 4294967296 := by
  unfold u32dec4
  cases le <;> simp <;> omega

/-- Re-encoding a decoded 32-bit word restores the original bytes. -/
theorem u32enc_dec (le : Bool) (b0 b1 b2 b3 : Nat) (h0 : b0 < 256)
    (h1 : b1 < 256) (h2 : b2 < 256) (h3 : b3 < 256) :
    u32enc le (u32dec4 le b0 b1 b2 b3) = [b0, b1, b2, b3] := by
  unfold u32enc u32dec4
  cases le <;> simp <;> refine ⟨?_, ?_, ?_, ?_⟩ <;> omega

/-- Reading a 32-bit word where an encoded word is known to sit returns
the encoded value. -/
theorem readU32_enc_prefix (le : Bool) (v : Nat) (g : List Nat) (off : Nat)
    (rest : List Nat) (hv : v < 4294967296)
    (h : g.drop off = u32enc le v ++ rest) :
    readU32 le g off = some v := by
  unfold readU32
  unfold u32enc at h
  cases le <;> simp only [if_pos, if_neg, Bool.false_eq_true,
    ite_false, ite_true, List.cons_append, List.nil_append] at h <;>
    rw [h] <;> unfold u32dec4 <;> simp <;> omega

/-- A hex digit character produced by `bytes.hex()` decodes back to its
value. -/
theorem hexVal_hexChar (d : Nat) (h : d < 16) :
    hexVal (hexChar d) = some d := by
  interval_cases d <;> rfl

/-- A hex digit character is not a space. -/
theorem hexChar_ne_space (d : Nat) (h : d < 16) : hexChar d ≠ ' ' := by
  interval_cases d <;> decide

/-- `bytes.fromhex` inverts `bytes.hex()` on genuine byte strings. -/
theorem fromhex_hex (l : List Nat) (h : ∀ x ∈ l, x < 256) :
    bytes_fromhex (bytes_hex l) = some l := by
  induction l with
  | nil => rfl
  | cons x tl ih =>
    have hx : x < 256 := h x (by simp)
    have hhi : x / 16 < 16 := by omega
    have hlo : x % 16 < 16 := by omega
    have hrec := ih (fun y hy => h y (by simp [hy]))
    show bytes_fromhex (hexChar (x / 16) :: hexChar (x % 16) ::
      bytes_hex tl) = some (x :: tl)
    unfold bytes_fromhex
    rw [if_neg (hexChar_ne_space _ hhi)]
    simp only [hexVal_hexChar _ hhi, hexVal_hexChar _ hlo, hrec,
      Option.map_some', Option.some.injEq, List.cons.injEq]
    exact ⟨by omega, trivial⟩

/-- A value below a power of two has a clear bit there. -/
theorem small_and_two_pow (base i : Nat) (hb : base < 2 ^ i) :
    base &&& 2 ^ i = 0 := by
  rw [Nat.and_two_pow, Nat.testBit_eq_false_of_lt hb]
  simp

/-- Masking an or by a mask the left operand misses entirely. -/
theorem or_and_mask (base c m : Nat) (hb : base &&& m = 0) :
    (base ||| c) &&& m = c &&& m := by
  rw [Nat.and_distrib_right, hb, Nat.zero_or]

/-- Masking an or by the low 16 bits recovers a small left operand when
the right operand has no low bits. -/
theorem or_and_low (base c : Nat) (hb : base < 65536)
    (hc : c &&& 65535 = 0) : (base ||| c) &&& 65535 = base := by
  rw [Nat.and_distrib_right, hc, Nat.or_zero]
  have h : (65535 : Nat) = 2 ^ 16 - 1 := by norm_num
  rw [h, Nat.and_pow_two_sub_one_eq_mod, Nat.mod_eq_of_lt hb]

/-- An or of a small value and a value below 2^32 stays below 2^32. -/
theorem or_lt_u32 (base c : Nat) (hb : base < 4294967296)
    (hc : c < 4294967296) : base ||| c < 4294967296 := by
  have h : (4294967296 : Nat) = 2 ^ 32 := by norm_num
  rw [h] at hb hc ⊢
  exact Nat.or_lt_two_pow hb hc

/-- The emptiness probe of `hexewkb_to_geom`, read through a known
decomposition `e.drop doff = body` of the buffer. -/
theorem hexewkb_empty_probe (bo : Bool) (wt doff : Nat) (e body : List Nat)
    (hdrop : e.drop doff = body)
    (hlen : if wt % 1000 = 1 then 16 ≤ body.length else 4 ≤ body.length) :
    (if wt % 1000 = 1 then
       if doff + 16 ≤ e.length then
         some (isNan8 bo ((e.drop doff).take 8) &&
           isNan8 bo (((e.drop doff).drop 8).take 8))
       else none
     else (readU32 bo e doff).map (fun n => n == 0)) =
      some (if wt % 1000 = 1 then
        isNan8 bo (body.take 8) && isNan8 bo ((body.drop 8).take 8)
      else u32dec4 bo (body.getD 0 0) (body.getD 1 0) (body.getD 2 0)
        (body.getD 3 0) == 0) := by
  have hblen0 : body.length = e.length - doff := by
    rw [← hdrop]
    simp [List.length_drop]
  by_cases hpt : wt % 1000 = 1
  · rw [if_pos hpt] at hlen
    rw [if_pos hpt, if_pos hpt, if_pos (by omega), hdrop]
  · rw [if_neg hpt] at hlen
    rw [if_neg hpt, if_neg hpt]
    rcases body with _ | ⟨b0, body⟩
    · simp at hlen
    rcases body with _ | ⟨b1, body⟩
    · simp at hlen
    rcases body with _ | ⟨b2, body⟩
    · simp at hlen
    rcases body with _ | ⟨b3, body⟩
    · simp at hlen
    rw [readU32_of_drop bo e doff b0 b1 b2 b3 body hdrop]
    rfl

/-- Reassembling a 16-bit ISO WKB type word from its base and its ZM
code. -/
theorem wkb_type_reconstruct (t : Nat) (hzm : t / 1000 ≤ 3) :
    t % 1000 + 1000 * (if (t / 1000 == 1 || t / 1000 == 3) = true then 1
        else 0) +
      2000 * (if (t / 1000 == 2 || t / 1000 == 3) = true then 1 else 0) =
      t := by
  have h4 : t / 1000 = 0 ∨ t / 1000 = 1 ∨ t / 1000 = 2 ∨ t / 1000 = 3 := by
    omega
  rcases h4 with h | h | h | h <;> rw [h] <;> simp <;> omega

/-- Field extraction from an EWKB type word built by `geom_to_ewkb`: the
low 16 bits are the base type, and each of the three high flag bits is
exactly its summand. -/
theorem et_bits (base : Nat) (hb : base < 1000) (cz cm cs : Prop)
    [Decidable cz] [Decidable cm] [Decidable cs] :
    ((base ||| (if cz then 2147483648 else 0)) |||
        (if cm then 1073741824 else 0)) ||| (if cs then 536870912 else 0) <
      4294967296 ∧
    (((base ||| (if cz then 2147483648 else 0)) |||
        (if cm then 1073741824 else 0)) ||| (if cs then 536870912 else 0))
        &&& 65535 = base ∧
    (((base ||| (if cz then 2147483648 else 0)) |||
        (if cm then 1073741824 else 0)) ||| (if cs then 536870912 else 0))
        &&& 2147483648 = (if cz then 2147483648 else 0) ∧
    (((base ||| (if cz then 2147483648 else 0)) |||
        (if cm then 1073741824 else 0)) ||| (if cs then 536870912 else 0))
        &&& 1073741824 = (if cm then 1073741824 else 0) ∧
    (((base ||| (if cz then 2147483648 else 0)) |||
        (if cm then 1073741824 else 0)) ||| (if cs then 536870912 else 0))
        &&& 536870912 = (if cs then 536870912 else 0) := by
  have hb31 : base &&& 2147483648 = 0 := by
    have h : (2147483648 : Nat) = 2 ^ 31 := by norm_num
    rw [h]
    exact small_and_two_pow base 31 (by omega)
  have hb30 : base &&& 1073741824 = 0 := by
    have h : (1073741824 : Nat) = 2 ^ 30 := by norm_num
    rw [h]
    exact small_and_two_pow base 30 (by omega)
  have hb29 : base &&& 536870912 = 0 := by
    have h : (536870912 : Nat) = 2 ^ 29 := by norm_num
    rw [h]
    exact small_and_two_pow base 29 (by omega)
  split_ifs with hz hm hs <;>
    refine ⟨or_lt_u32 _ _ (or_lt_u32 _ _ (or_lt_u32 _ _ (by omega)
        (by norm_num)) (by norm_num)) (by norm_num), ?_, ?_, ?_, ?_⟩ <;>
    rw [Nat.or_assoc, Nat.or_assoc] <;>
    first
    | (rw [or_and_low base _ (by omega) (by decide)])
    | (rw [or_and_mask base _ _ hb31]; decide)
    | (rw [or_and_mask base _ _ hb30]; decide)
    | (rw [or_and_mask base _ _ hb29]; decide)

/-- The encoded word occupies four bytes. -/
theorem u32enc_length (le : Bool) (v : Nat) : (u32enc le v).length = 4 := by
  cases le <;> rfl

/-- C5 (amended): for every valid GPB geometry — header endianness flag
agreeing with the inner WKB endianness byte, reserved flag bits clear,
envelope of the size the indicator calls for, a 16-bit ISO WKB type word,
a non-negative SRID, and the GPB empty flag agreeing with what the WKB
body encodes (NaN point coordinates / zero leading count) — converting
with `geom_to_ewkb`, hex-encoding, and converting back with
`hexewkb_to_geom` yields the original GPB with its envelope removed and
the envelope-indicator flag bits cleared, all other header fields and
the WKB body preserved. -/
theorem hexewkb_roundtrip (le_flag empty_flag : Bool)
    (ind s0 s1 s2 s3 w0 t0 t1 t2 t3 : Nat) (env body : List Nat)
    (hind : ind ≤ 4)
    (henv : env.length = gpbEnvSize ind)
    (hw0 : w0 < 256)
    (hs0 : s0 < 256) (hs1 : s1 < 256) (hs2 : s2 < 256) (hs3 : s3 < 256)
    (ht0 : t0 < 256) (ht1 : t1 < 256) (ht2 : t2 < 256) (ht3 : t3 < 256)
    (hbody : ∀ x ∈ body, x < 256)
    (hbo : le_flag = (w0 != 0))
    (ht : u32dec4 (w0 != 0) t0 t1 t2 t3 < 65536)
    (hzm : u32dec4 (w0 != 0) t0 t1 t2 t3 / 1000 ≤ 3)
    (hsrid : 0 ≤ toI32 (u32dec4 le_flag s0 s1 s2 s3))
    (hblen : if u32dec4 (w0 != 0) t0 t1 t2 t3 % 1000 = 1 then
      16 ≤ body.length else 4 ≤ body.length)
    (hempty : empty_flag = (if u32dec4 (w0 != 0) t0 t1 t2 t3 % 1000 = 1 then
        isNan8 (w0 != 0) (body.take 8) &&
          isNan8 (w0 != 0) ((body.drop 8).take 8)
      else u32dec4 (w0 != 0) (body.getD 0 0) (body.getD 1 0)
        (body.getD 2 0) (body.getD 3 0) == 0)) :
    ∀ e, geom_to_ewkb (some ([0x47, 0x50, 0,
        (if le_flag then 1 else 0) + 2 * ind +
          (if empty_flag then 16 else 0), s0, s1, s2, s3] ++ env ++
        (w0 :: t0 :: t1 :: t2 :: t3 :: body))) = .ok (some e) →
      hexewkb_to_geom (some (bytes_hex e)) = .ok (some ([0x47, 0x50, 0,
        (if le_flag then 1 else 0) + (if empty_flag then 16 else 0),
        s0, s1, s2, s3] ++ (w0 :: t0 :: t1 :: t2 :: t3 :: body))) := by
  intro e he
  have hflA : ((if le_flag then 1 else 0) + 2 * ind +
      (if empty_flag then 16 else 0)) &&& 32 = 0 := by
    cases le_flag <;> cases empty_flag <;> interval_cases ind <;> decide
  have hflB : (((if le_flag then 1 else 0) + 2 * ind +
      (if empty_flag then 16 else 0)) &&& 14) >>> 1 = ind := by
    cases le_flag <;> cases empty_flag <;> interval_cases ind <;> decide
  have hflC : (((if le_flag then 1 else 0) + 2 * ind +
      (if empty_flag then 16 else 0)) &&& 1 != 0) = le_flag := by
    cases le_flag <;> cases empty_flag <;> interval_cases ind <;> decide
  rw [geom_to_ewkb_eval _ s0 s1 s2 s3 w0 t0 t1 t2 t3 env body hflA
    (by rw [hflB]; exact hind) (by rw [hflB]; exact henv)] at he
  simp only [Except.ok.injEq, Option.some.injEq] at he
  subst he
  rw [hbo] at hsrid
  rw [hflC, hbo]
  have hmask : u32dec4 (w0 != 0) t0 t1 t2 t3 &&& 65535 =
      u32dec4 (w0 != 0) t0 t1 t2 t3 := by
    have h2 := Nat.and_pow_two_sub_one_eq_mod (u32dec4 (w0 != 0) t0 t1 t2 t3) 16
    norm_num at h2
    rw [h2]
    exact Nat.mod_eq_of_lt ht
  rw [hmask]
  set t := u32dec4 (w0 != 0) t0 t1 t2 t3 with hty
  set u := u32dec4 (w0 != 0) s0 s1 s2 s3 with huy
  have hu32 : u < 4294967296 := u32dec4_lt _ _ _ _ _ hs0 hs1 hs2 hs3
  by_cases hpos : toI32 u > 0
  · have hu31 : u < 2147483648 := by
      by_contra hge
      push_neg at hge
      unfold toI32 at hpos
      rw [if_neg (by omega)] at hpos
      omega
    have htoNat : (toI32 u).toNat = u := by
      unfold toI32
      rw [if_pos hu31]
      simp
    have hS : (if toI32 u > 0 then u32enc (w0 != 0) (toI32 u).toNat
        else []) = u32enc (w0 != 0) u := by
      rw [if_pos hpos, htoNat]
    rw [hS]
    obtain ⟨hETlt, hET16, hET31, hET30, hET29⟩ :=
      et_bits (t % 1000) (by omega) ((t / 1000 == 1 || t / 1000 == 3) = true)
        ((t / 1000 == 2 || t / 1000 == 3) = true) (toI32 u > 0)
    set ET := ((t % 1000 |||
      if (t / 1000 == 1 || t / 1000 == 3) = true then 2147483648 else 0) |||
      if (t / 1000 == 2 || t / 1000 == 3) = true then 1073741824 else 0) |||
      if toI32 u > 0 then 536870912 else 0 with hETy
    simp only [List.cons_append, List.append_assoc]
    have hEbytes : ∀ x ∈ w0 :: (u32enc (w0 != 0) ET ++
        (u32enc (w0 != 0) u ++ body)), x < 256 := by
      intro x hx
      simp only [List.mem_cons, List.mem_append] at hx
      rcases hx with rfl | hx | hx | hx
      · exact hw0
      · exact u32enc_lt _ _ _ hx
      · exact u32enc_lt _ _ _ hx
      · exact hbody _ hx
    have hfrom := fromhex_hex _ hEbytes
    have hr0 : readU8 (w0 :: (u32enc (w0 != 0) ET ++
        (u32enc (w0 != 0) u ++ body))) 0 = some w0 := by
      simp [readU8]
    have hr1 : readU32 (w0 != 0) (w0 :: (u32enc (w0 != 0) ET ++
        (u32enc (w0 != 0) u ++ body))) 1 = some ET :=
      readU32_enc_prefix _ _ _ _ _ hETlt rfl
    have hdrop5 : (w0 :: (u32enc (w0 != 0) ET ++
        (u32enc (w0 != 0) u ++ body))).drop 5 =
        u32enc (w0 != 0) u ++ body := by
      simp only [List.drop_succ_cons]
      exact List.drop_left' (u32enc_length _ _)
    have hr5 : readU32 (w0 != 0) (w0 :: (u32enc (w0 != 0) ET ++
        (u32enc (w0 != 0) u ++ body))) 5 = some u :=
      readU32_enc_prefix _ _ _ _ _ hu32 hdrop5
    have hdrop9 : (w0 :: (u32enc (w0 != 0) ET ++
        (u32enc (w0 != 0) u ++ body))).drop 9 = body := by
      have h9 := congrArg (List.drop 4) hdrop5
      rw [List.drop_drop, List.drop_left' (u32enc_length _ _)] at h9
      norm_num at h9
      exact h9
    have h29 : (ET &&& 536870912 != 0) = true := by
      rw [hET29, if_pos hpos]
      decide
    have h31 : (ET &&& 2147483648 != 0) =
        (t / 1000 == 1 || t / 1000 == 3) := by
      rw [hET31]
      by_cases h : (t / 1000 == 1 || t / 1000 == 3) = true
      · rw [if_pos h, h]
        decide
      · rw [if_neg h]
        rw [Bool.not_eq_true] at h
        rw [h]
        decide
    have h30 : (ET &&& 1073741824 != 0) =
        (t / 1000 == 2 || t / 1000 == 3) := by
      rw [hET30]
      by_cases h : (t / 1000 == 2 || t / 1000 == 3) = true
      · rw [if_pos h, h]
        decide
      · rw [if_neg h]
        rw [Bool.not_eq_true] at h
        rw [h]
        decide
    simp only [hexewkb_to_geom, hfrom, hr0, hr1, h29, hr5, hET16, h31, h30]
    rw [if_pos trivial]
    simp only [Option.map_some']
    rw [wkb_type_reconstruct t hzm]
    rw [hexewkb_empty_probe (w0 != 0) t 9 _ body hdrop9 hblen]
    rw [← hempty]
    split
    · next heqn => exact absurd heqn (by simp)
    next is_empty heqs =>
      have hie : empty_flag = is_empty := by
        injection heqs
      subst hie
      rw [if_pos hu31, hdrop9]
      have horp : ((if (w0 != 0) = true then 1 else 0 : Nat) |||
          (if empty_flag = true then 16 else 0)) =
          (if (w0 != 0) = true then 1 else 0) +
            (if empty_flag = true then 16 else 0) := by
        cases (w0 != 0) <;> cases empty_flag <;> decide
      rw [horp]
      rw [huy, u32enc_dec _ _ _ _ _ hs0 hs1 hs2 hs3]
      rw [hty, u32enc_dec _ _ _ _ _ ht0 ht1 ht2 ht3]
      simp
  · have hu0 : u = 0 := by
      unfold toI32 at hpos hsrid
      by_cases hc : u < 2147483648
      · rw [if_pos hc] at hpos hsrid
        omega
      · rw [if_neg hc] at hpos hsrid
        omega
    have hsz : s0 = 0 ∧ s1 = 0 ∧ s2 = 0 ∧ s3 = 0 := by
      rw [huy] at hu0
      unfold u32dec4 at hu0
      split at hu0
      · exact ⟨by omega, by omega, by omega, by omega⟩
      · exact ⟨by omega, by omega, by omega, by omega⟩
    obtain ⟨rfl, rfl, rfl, rfl⟩ := hsz
    have hS : (if toI32 u > 0 then u32enc (w0 != 0) (toI32 u).toNat
        else []) = ([] : List Nat) := if_neg hpos
    rw [hS]
    obtain ⟨hETlt, hET16, hET31, hET30, hET29⟩ :=
      et_bits (t % 1000) (by omega) ((t / 1000 == 1 || t / 1000 == 3) = true)
        ((t / 1000 == 2 || t / 1000 == 3) = true) (toI32 u > 0)
    set ET := ((t % 1000 |||
      if (t / 1000 == 1 || t / 1000 == 3) = true then 2147483648 else 0) |||
      if (t / 1000 == 2 || t / 1000 == 3) = true then 1073741824 else 0) |||
      if toI32 u > 0 then 536870912 else 0 with hETy
    simp only [List.cons_append, List.append_assoc, List.nil_append]
    have hEbytes : ∀ x ∈ w0 :: (u32enc (w0 != 0) ET ++ body), x < 256 := by
      intro x hx
      simp only [List.mem_cons, List.mem_append] at hx
      rcases hx with rfl | hx | hx
      · exact hw0
      · exact u32enc_lt _ _ _ hx
      · exact hbody _ hx
    have hfrom := fromhex_hex _ hEbytes
    have hr0 : readU8 (w0 :: (u32enc (w0 != 0) ET ++ body)) 0 = some w0 := by
      simp [readU8]
    have hr1 : readU32 (w0 != 0) (w0 :: (u32enc (w0 != 0) ET ++ body)) 1 =
        some ET := readU32_enc_prefix _ _ _ _ _ hETlt rfl
    have hdrop5 : (w0 :: (u32enc (w0 != 0) ET ++ body)).drop 5 = body := by
      simp only [List.drop_succ_cons]
      exact List.drop_left' (u32enc_length _ _)
    have h29 : (ET &&& 536870912 != 0) = false := by
      rw [hET29, if_neg hpos]
      decide
    have h31 : (ET &&& 2147483648 != 0) =
        (t / 1000 == 1 || t / 1000 == 3) := by
      rw [hET31]
      by_cases h : (t / 1000 == 1 || t / 1000 == 3) = true
      · rw [if_pos h, h]
        decide
      · rw [if_neg h]
        rw [Bool.not_eq_true] at h
        rw [h]
        decide
    have h30 : (ET &&& 1073741824 != 0) =
        (t / 1000 == 2 || t / 1000 == 3) := by
      rw [hET30]
      by_cases h : (t / 1000 == 2 || t / 1000 == 3) = true
      · rw [if_pos h, h]
        decide
      · rw [if_neg h]
        rw [Bool.not_eq_true] at h
        rw [h]
        decide
    simp only [hexewkb_to_geom, hfrom, hr0, hr1, h29, hET16, h31, h30,
      Bool.false_eq_true, ite_false]
    rw [wkb_type_reconstruct t hzm]
    rw [hexewkb_empty_probe (w0 != 0) t 5 _ body hdrop5 hblen]
    rw [← hempty]
    split
    · next heqn => exact absurd heqn (by simp)
    next is_empty heqs =>
      have hie : empty_flag = is_empty := by
        injection heqs
      subst hie
      rw [if_pos (by norm_num : (0 : Nat) < 2147483648), hdrop5]
      have horp : ((if (w0 != 0) = true then 1 else 0 : Nat) |||
          (if empty_flag = true then 16 else 0)) =
          (if (w0 != 0) = true then 1 else 0) +
            (if empty_flag = true then 16 else 0) := by
        cases (w0 != 0) <;> cases empty_flag <;> decide
      rw [horp]
      rw [hty, u32enc_dec _ _ _ _ _ ht0 ht1 ht2 ht3]
      have hz4 : u32enc (w0 != 0) 0 = [0, 0, 0, 0] := by
        cases (w0 != 0) <;> rfl
      rw [hz4]
      simp

/-- Witness for C5 (amended): the little-endian GPB of `POINT(0 0)` with
SRID 4167 and no envelope round-trips through EWKB hex back to itself
(it has no envelope to lose). -/
theorem hexewkb_roundtrip_witness :
    hexewkb_to_geom (some (bytes_hex (1 :: u32enc true 0x20000001 ++
        u32enc true 4167 ++ List.replicate 16 0))) =
      .ok (some ([0x47, 0x50, 0, 1, 71, 16, 0, 0] ++
        (1 :: 1 :: 0 :: 0 :: 0 :: List.replicate 16 0))) := by
  have h := hexewkb_roundtrip true false 0 71 16 0 0 1 1 0 0 0 []
    (List.replicate 16 0) (by decide) (by decide) (by decide) (by decide)
    (by decide) (by decide) (by decide) (by decide) (by decide) (by decide)
    (by decide) (by decide) (by decide) (by decide) (by decide) (by decide)
    (by decide) (by decide)
    (1 :: u32enc true 0x20000001 ++ u32enc true 4167 ++ List.replicate 16 0)
    (by decide)
  exact h.trans (by decide)

/-- Counterexample to C5 as stated: a valid little-endian GPB of
`POINT(0 0)` whose SRID field holds -1 (the GeoPackage "undefined"
SRID).  `geom_to_ewkb` emits no SRID because -1 is not positive, and
`hexewkb_to_geom` reconstructs SRID 0, so the round trip does not return
the original GPB modulo envelope bytes: the SRID field changes from
`FF FF FF FF` to `00 00 00 00`. -/
theorem hexewkb_roundtrip_counterexample :
    geom_to_ewkb (some ([0x47, 0x50, 0, 1, 255, 255, 255, 255] ++
        ([] : List Nat) ++ (1 :: 1 :: 0 :: 0 :: 0 :: List.replicate 16 0))) =
      .ok (some (1 :: u32enc true 1 ++ List.replicate 16 0)) ∧
    hexewkb_to_geom (some (bytes_hex (1 :: u32enc true 1 ++
        List.replicate 16 0))) =
      .ok (some ([0x47, 0x50, 0, 1, 0, 0, 0, 0] ++
        (1 :: 1 :: 0 :: 0 :: 0 :: List.replicate 16 0))) ∧
    ([0x47, 0x50, 0, 1, 0, 0, 0, 0] ++
        (1 :: 1 :: 0 :: 0 :: 0 :: List.replicate 16 0)) ≠
      ([0x47, 0x50, 0, 1, 255, 255, 255, 255] ++
        (1 :: 1 :: 0 :: 0 :: 0 :: List.replicate 16 0)) :=
  ⟨by decide, by decide, by decide⟩
